import Mathlib

/-!
Shallow embedding of the RNG-Challenge repository (src/random.cpp and
src/random_parallel.cpp) over natural numbers with explicit reduction
modulo 2^32 wherever the C++ code relies on unsigned 32-bit wraparound.
Namespace `Random` embeds src/random.cpp, namespace `RandomParallel`
embeds src/random_parallel.cpp.
-/

set_option maxRecDepth 10000

/-- Number of set bits among the low `k` bits of `n`, by binary recursion.
With `k = 32` this is `std::popcount` on a `uint32_t` value. -/
def popCountAux : Nat → Nat → Nat
  | 0, _ => 0
  | k+1, n => n % 2 + popCountAux k (n / 2)

/-- Embedding of `std::popcount` on a 32-bit word. -/
def popCount32 (n : Nat) : Nat := popCountAux 32 n

namespace Random

/-- Embedding of `lowerHalfSet` from src/random.cpp: `(1u << 16) - 1`. -/
def lowerHalfSet : Nat := (1 <<< 16) - 1

/-- Embedding of `nextRandomNumber` from src/random.cpp. The C++ function
mutates `u` and `v` in place and returns the drawn word; here it returns
`(word, u, v)` with the updated state. All arithmetic is the C++ uint32
arithmetic, i.e. reduced modulo 2^32. -/
def nextRandomNumber (u v : Nat) : Nat × Nat × Nat :=
  let v2 := (36969 * (v &&& lowerHalfSet) + (v >>> 16)) % 2 ^ 32
  let u2 := (18000 * (u &&& lowerHalfSet) + (u >>> 16)) % 2 ^ 32
  (((v2 <<< 16) + (u2 &&& lowerHalfSet)) % 2 ^ 32, u2, v2)

/-- Embedding of `alternatingBitmask` from src/random.cpp. -/
def alternatingBitmask : Nat := 0xAAAAAAAA

/-- Embedding of `countPairwiseZeroBits` from src/random.cpp:
`popcount(n & (n << 1) & alternatingBitmask)` in uint32 arithmetic. -/
def countPairwiseZeroBits (n : Nat) : Nat :=
  popCount32 (n &&& ((n <<< 1) % 2 ^ 32) &&& alternatingBitmask)

/-- Embedding of `attempts` from src/random.cpp. -/
def attempts : Nat := 231

/-- Embedding of `numberOfExtractedPairs` from src/random.cpp:
`sizeof(std::uint32_t) * 4`. -/
def numberOfExtractedPairs : Nat := 4 * 4

/-- Embedding of `completeAttempts` from src/random.cpp:
`attempts / numberOfExtractedPairs`. -/
def completeAttempts : Nat := attempts / numberOfExtractedPairs

/-- Embedding of `remainingAttempts` from src/random.cpp. The source
initializer is `attempts / numberOfExtractedPairs` (a division, like
`completeAttempts`), not a remainder. -/
def remainingAttempts : Nat := attempts / numberOfExtractedPairs

/-- Embedding of `remainingAttemptsBitmask` from src/random.cpp:
`(1 << remainingAttempts * 2) - 1`. -/
def remainingAttemptsBitmask : Nat := (1 <<< (remainingAttempts * 2)) - 1

/-- The `for` loop of `calculateRound` in src/random.cpp: run `i` more
iterations, each drawing a word and adding its sampled hits to the
accumulated `count`. Returns `(count, u, v)`. -/
def calcLoop : Nat → Nat → Nat → Nat → Nat × Nat × Nat
  | 0, c, u, v => (c, u, v)
  | i+1, c, u, v =>
      calcLoop i (c + countPairwiseZeroBits (nextRandomNumber u v).1)
        (nextRandomNumber u v).2.1 (nextRandomNumber u v).2.2

/-- Embedding of `calculateRound` from src/random.cpp: `completeAttempts`
full draws followed by one unconditional masked draw. -/
def calculateRound (u v : Nat) : Nat :=
  let t := calcLoop completeAttempts 0 u v
  t.1 + countPairwiseZeroBits
    ((nextRandomNumber t.2.1 t.2.2).1 &&& remainingAttemptsBitmask)

/-- Embedding of `rounds` from src/random.cpp. -/
def rounds : Nat := 1000000000

/-- The `for` loop of `runSimulation` in src/random.cpp: `r` remaining
rounds, accumulator `m` for `maxCount`, running generator state `(u, v)`.
Each round draws `uu` then `vv` from the running state and evaluates one
batch on the pair `(uu, vv)`. -/
def simLoop : Nat → Nat → Nat → Nat → Nat
  | 0, m, _, _ => m
  | r+1, m, u, v =>
      let t1 := nextRandomNumber u v
      let t2 := nextRandomNumber t1.2.1 t1.2.2
      simLoop r (max m (calculateRound t1.1 t2.1)) t2.2.1 t2.2.2

/-- Embedding of `runSimulation` from src/random.cpp, generalized in the
number of rounds (the source fixes it to the constant `rounds`). -/
def runSimulationFor (r u v : Nat) : Nat := simLoop r 0 u v

/-- Embedding of `runSimulation` from src/random.cpp at the source's
round count. -/
def runSimulation (u v : Nat) : Nat := runSimulationFor rounds u v

/-- State of the running generator after `n` calls to `nextRandomNumber`
(discarding the drawn words). -/
def stateAfter : Nat → Nat × Nat → Nat × Nat
  | 0, s => s
  | n+1, s => stateAfter n (nextRandomNumber s.1 s.2).2

/-- Result of batch `i` (0-based) of the sequential simulation started at
state `(u, v)`: the driver state before batch `i` is the seed advanced
`2 * i` generator calls, and the batch evaluates the pair of the next two
drawn words. -/
def batchResult (u v i : Nat) : Nat :=
  let s := stateAfter (2 * i) (u, v)
  let t1 := nextRandomNumber s.1 s.2
  let t2 := nextRandomNumber t1.2.1 t1.2.2
  calculateRound t1.1 t2.1

/-- List of the `r` batch results produced by the sequential simulation
loop started at state `(u, v)`, in processing order. -/
def batchList : Nat → Nat → Nat → List Nat
  | 0, _, _ => []
  | r+1, u, v =>
      let t1 := nextRandomNumber u v
      let t2 := nextRandomNumber t1.2.1 t1.2.2
      calculateRound t1.1 t2.1 :: batchList r t2.2.1 t2.2.2

end Random

namespace RandomParallel

/-- Embedding of `bitSize` from src/random_parallel.cpp: `sizeof(Int) * 8`. -/
def bitSize : Nat := 4 * 8

/-- Embedding of `halfBitSize` from src/random_parallel.cpp. -/
def halfBitSize : Nat := bitSize / 2

/-- Embedding of `lowerHalfBitMask` from src/random_parallel.cpp. -/
def lowerHalfBitMask : Nat := (1 <<< halfBitSize) - 1

/-- Embedding of `struct State` from src/random_parallel.cpp. -/
structure State where
  u : Nat
  v : Nat
deriving DecidableEq

/-- Embedding of `nextRandomNumber` from src/random_parallel.cpp. The C++
function mutates the state and returns the drawn word; here it returns
`(word, state)`. -/
def nextRandomNumber (s : State) : Nat × State :=
  let v2 := (36969 * (s.v &&& lowerHalfBitMask) + (s.v >>> halfBitSize)) % 2 ^ 32
  let u2 := (18000 * (s.u &&& lowerHalfBitMask) + (s.u >>> halfBitSize)) % 2 ^ 32
  (((v2 <<< halfBitSize) % 2 ^ 32) ||| (u2 &&& lowerHalfBitMask), ⟨u2, v2⟩)

/-- Embedding of `deriveNewState` from src/random_parallel.cpp: draw two
words `u`, `v` from the (mutated) argument state and return the state
built from them. Returns `(returned state, mutated argument state)`. -/
def deriveNewState (s : State) : State × State :=
  let t1 := nextRandomNumber s
  let t2 := nextRandomNumber t1.2
  (⟨t1.1, t2.1⟩, t2.2)

/-- Embedding of `alternatingBitmask` from src/random_parallel.cpp. -/
def alternatingBitmask : Nat := 0xAAAAAAAA

/-- Embedding of `countPairwiseZeroBits` from src/random_parallel.cpp. -/
def countPairwiseZeroBits (n : Nat) : Nat :=
  popCount32 (n &&& ((n <<< 1) % 2 ^ 32) &&& alternatingBitmask)

/-- Embedding of `attempts` from src/random_parallel.cpp. -/
def attempts : Nat := 231

/-- Embedding of `numberOfExtractedPairs` from src/random_parallel.cpp. -/
def numberOfExtractedPairs : Nat := halfBitSize

/-- Embedding of `completeAttempts` from src/random_parallel.cpp. -/
def completeAttempts : Nat := attempts / numberOfExtractedPairs

/-- Embedding of `remainingAttempts` from src/random_parallel.cpp:
`attempts % numberOfExtractedPairs`. -/
def remainingAttempts : Nat := attempts % numberOfExtractedPairs

/-- Embedding of `remainingAttemptsBitmask` from src/random_parallel.cpp. -/
def remainingAttemptsBitmask : Nat := (1 <<< (remainingAttempts * 2)) - 1

/-- The `for` loop of `calculateRound` in src/random_parallel.cpp. -/
def calcLoop : Nat → Nat → State → Nat × State
  | 0, c, s => (c, s)
  | i+1, c, s =>
      calcLoop i (c + countPairwiseZeroBits (nextRandomNumber s).1)
        (nextRandomNumber s).2

/-- Embedding of `calculateRound` from src/random_parallel.cpp. -/
def calculateRound (s : State) : Nat :=
  let t := calcLoop completeAttempts 0 s
  t.1 + countPairwiseZeroBits
    ((nextRandomNumber t.2).1 &&& remainingAttemptsBitmask)

/-- Embedding of `rounds` from src/random_parallel.cpp. -/
def rounds : Nat := 1000000000

/-- The `for` loop of the copy constructor `Init::Init(const Init&)` in
src/random_parallel.cpp: `n` remaining iterations of
`s = deriveNewState(s)`. Each iteration replaces `s` by the state
returned by `deriveNewState` (the in-place mutation of the argument is
overwritten by the assignment). -/
def initDerive : Nat → State → State
  | 0, s => s
  | n+1, s => initDerive n (deriveNewState s).1

/-- Embedding of `Init::Init(const Init&)` from src/random_parallel.cpp:
the thread with OpenMP thread number `ithread` starts from the other
copy's state iterated `2 * ithread` times through `deriveNewState`. -/
def initWorkerState (s : State) (ithread : Nat) : State :=
  initDerive (2 * ithread) s

/-- Modelled from the spec (section 4.4 and the design notes): advancing
a generator state by `n` calls to the Bit-Stream Generator of section
4.1, keeping only the state transition and discarding the drawn words.
The claim describes the worker-state derivation as `2 × workerIndex`
such generator steps. -/
def advanceState : Nat → State → State
  | 0, s => s
  | n+1, s => advanceState n (nextRandomNumber s).2

/-- One worker's body of the `omp parallel for` loop in `runSimulation`
of src/random_parallel.cpp, run for `n` of its assigned iterations from
its running state `s`: each iteration derives a fresh batch state via
`deriveNewState` (which also advances the running state) and evaluates
one batch on it. Returns the batch results in processing order. -/
def batchList : Nat → State → List Nat
  | 0, _ => []
  | n+1, s =>
      calculateRound (deriveNewState s).1 :: batchList n (deriveNewState s).2

/-- Local maximum accumulated by one worker over its `n` assigned
iterations (OpenMP `reduction(max:maxCount)` with identity 0 for an
unsigned max). -/
def workerMax (n : Nat) (s : State) : Nat := List.foldl max 0 (batchList n s)

/-- Per-thread local maxima of `runSimulation` from src/random_parallel.cpp
under a static partition: the thread with index `t` (starting at the given
first index) runs the corresponding entry of `counts` many iterations from
its `Init`-derived state. The loop body of the source does not read the
loop index, so a thread's contribution depends only on its derived state
and its iteration count. -/
def threadResults (s : State) : Nat → List Nat → List Nat
  | _, [] => []
  | t, c :: cs => workerMax c (initWorkerState s t) :: threadResults s (t+1) cs

/-- Embedding of `runSimulation` from src/random_parallel.cpp,
parametrized by the per-thread iteration counts of the OpenMP static
partition (the source fixes their sum to `rounds`): the final result is
the `max`-reduction of the per-thread local maxima over the initial
`maxCount = 0`. -/
def runSimulation (s : State) (counts : List Nat) : Nat :=
  List.foldl max 0 (threadResults s 0 counts)

/-- The multiset-underlying list of all batch results of a parallel run:
concatenation of every worker's batch results. -/
def allBatches (s : State) : Nat → List Nat → List Nat
  | _, [] => []
  | t, c :: cs => batchList c (initWorkerState s t) ++ allBatches s (t+1) cs

/-- The `for` loop of `calculateRound`, instrumented with a counter of
calls to `nextRandomNumber`: state is `(count, generator calls, state)`. -/
def calcLoopCounted : Nat → Nat → Nat → State → Nat × Nat × State
  | 0, c, g, s => (c, g, s)
  | i+1, c, g, s =>
      calcLoopCounted i (c + countPairwiseZeroBits (nextRandomNumber s).1)
        (g + 1) (nextRandomNumber s).2

/-- The Batch Evaluator of `calculateRound`, generalized over the
`attempts` configuration constant (the derived constants
`completeAttempts`, `remainingAttempts` and `remainingAttemptsBitmask`
are recomputed from it exactly as in src/random_parallel.cpp) and
instrumented to count generator calls. Returns
`(batch count, generator calls)`. At `attemptsCfg = attempts = 231` the
batch count coincides with `calculateRound`. -/
def calculateRoundCounted (attemptsCfg : Nat) (s : State) : Nat × Nat :=
  let full := attemptsCfg / numberOfExtractedPairs
  let rem := attemptsCfg % numberOfExtractedPairs
  let mask := (1 <<< (rem * 2)) - 1
  let t := calcLoopCounted full 0 0 s
  (t.1 + countPairwiseZeroBits ((nextRandomNumber t.2.2).1 &&& mask),
    t.2.1 + 1)

end RandomParallel

/-- Modelled from the spec (section 4.2): partition the word into 16
adjacent 2-bit groups (group `j` holds bits `2j` and `2j+1`) and count
the groups whose both bits are set, i.e. whose 2-bit value is `11` = 3. -/
def specGroupSuccessCount (n : Nat) : Nat :=
  ∑ j ∈ Finset.range 16, if n / 2 ^ (2 * j) % 4 = 3 then 1 else 0

/-- Modelled from the spec's words in claim C3 and section 4.2: the mask
with every even bit position (0, 2, ..., 30) set, for comparison with the
source's `alternatingBitmask = 0xAAAAAAAA` which has the odd positions
set. -/
def specEvenAlternatingMask : Nat := ∑ j ∈ Finset.range 16, 2 ^ (2 * j)

/-! ### Popcount lemmas -/

theorem popCountAux_eq_sum (k : Nat) :
    ∀ n, popCountAux k n = ∑ i ∈ Finset.range k, if n.testBit i then 1 else 0 := by
  induction k with
  | zero => intro n; simp [popCountAux]
  | succ k ih =>
    intro n
    rw [popCountAux, ih (n / 2), Finset.sum_range_succ']
    have h0 : (if n.testBit 0 then 1 else 0) = n % 2 := by
      rcases Nat.mod_two_eq_zero_or_one n with h | h <;> simp [Nat.testBit_zero, h]
    have hs : ∀ i, ((n / 2).testBit i) = n.testBit (i + 1) := by
      intro i; rw [Nat.testBit_add_one]
    simp only [hs, h0]
    omega

theorem popCount32_eq_sum (n : Nat) :
    popCount32 n = ∑ i ∈ Finset.range 32, if n.testBit i then 1 else 0 :=
  popCountAux_eq_sum 32 n

theorem popCount32_mono {a b : Nat}
    (h : ∀ i, i < 32 → a.testBit i = true → b.testBit i = true) :
    popCount32 a ≤ popCount32 b := by
  rw [popCount32_eq_sum, popCount32_eq_sum]
  refine Finset.sum_le_sum ?_
  intro i hi
  rcases ha : a.testBit i with _ | _
  · simp
  · rw [h i (Finset.mem_range.mp hi) ha]

theorem testBit_of_land_left {x y : Nat} {i : Nat}
    (h : (x &&& y).testBit i = true) : x.testBit i = true := by
  rw [Nat.testBit_land, Bool.and_eq_true] at h
  exact h.1

theorem testBit_of_land_right {x y : Nat} {i : Nat}
    (h : (x &&& y).testBit i = true) : y.testBit i = true := by
  rw [Nat.testBit_land, Bool.and_eq_true] at h
  exact h.2

theorem countPairwise_le_mask (n m : Nat) :
    popCount32 (n &&& m &&& 0xAAAAAAAA) ≤ popCount32 (0xAAAAAAAA : Nat) := by
  refine popCount32_mono ?_
  intro i _ h
  exact testBit_of_land_right h

/-- The sampler never reports more than 16 successes: every counted bit
lies in the 16-bit mask `0xAAAAAAAA`. -/
theorem cpz_le_16 (n : Nat) : RandomParallel.countPairwiseZeroBits n ≤ 16 := by
  have h := countPairwise_le_mask n ((n <<< 1) % 2 ^ 32)
  have h16 : popCount32 (0xAAAAAAAA : Nat) = 16 := by decide
  rw [h16] at h
  exact h

set_option maxHeartbeats 2000000 in
/-- Popcount of the odd-position mask restricted to the low `2 * k` bits. -/
theorem popCount32_lowMask_and (k : Nat) (hk : k ≤ 16) :
    popCount32 ((2 ^ (2 * k) - 1) &&& 0xAAAAAAAA) = k := by
  revert hk
  revert k
  decide

/-- Sampling a word masked to its low `2 * k` bits yields at most `k`
successes. -/
theorem cpz_masked_le (k : Nat) (hk : k ≤ 16) (w : Nat) :
    RandomParallel.countPairwiseZeroBits (w &&& (2 ^ (2 * k) - 1)) ≤ k := by
  have hmono : RandomParallel.countPairwiseZeroBits (w &&& (2 ^ (2 * k) - 1)) ≤
      popCount32 ((2 ^ (2 * k) - 1) &&& 0xAAAAAAAA) := by
    unfold RandomParallel.countPairwiseZeroBits
    refine popCount32_mono ?_
    intro i _ h
    rw [Nat.testBit_land, Bool.and_eq_true]
    have hA : (RandomParallel.alternatingBitmask).testBit i = true :=
      testBit_of_land_right h
    have hwm : (w &&& (2 ^ (2 * k) - 1)).testBit i = true :=
      testBit_of_land_left (testBit_of_land_left h)
    exact ⟨testBit_of_land_right hwm, hA⟩
  exact le_trans hmono (le_of_eq (popCount32_lowMask_and k hk))

/-! ### Generator lemmas -/

theorem shiftLeft16_add_eq_or (a b : Nat) :
    ((a <<< 16) + (b &&& ((1 <<< 16) - 1))) % 2 ^ 32 =
      ((a <<< 16) % 2 ^ 32) ||| (b &&& ((1 <<< 16) - 1)) := by
  have hmask : ((1 : Nat) <<< 16) - 1 = 2 ^ 16 - 1 := by decide
  rw [hmask, Nat.and_pow_two_sub_one_eq_mod, Nat.shiftLeft_eq]
  have h32 : (2 : Nat) ^ 32 = 2 ^ 16 * 2 ^ 16 := by norm_num
  have hshift : a * 2 ^ 16 % 2 ^ 32 = a % 2 ^ 16 * 2 ^ 16 := by
    rw [h32, Nat.mul_mod_mul_right]
  have hb : b % 2 ^ 16 < 2 ^ 16 := Nat.mod_lt _ (by norm_num)
  have hsum : a % 2 ^ 16 * 2 ^ 16 + b % 2 ^ 16 < 2 ^ 32 := by
    have h1 : a % 2 ^ 16 < 2 ^ 16 := Nat.mod_lt _ (by norm_num)
    have he : (2 : Nat) ^ 16 = 65536 := by norm_num
    have he2 : (2 : Nat) ^ 32 = 4294967296 := by norm_num
    rw [he] at h1 hb ⊢
    rw [he2]
    omega
  rw [Nat.add_mod, hshift, Nat.mod_eq_of_lt (lt_trans hb (by norm_num)),
    Nat.mod_eq_of_lt hsum, Nat.mul_comm (a % 2 ^ 16) (2 ^ 16)]
  exact Nat.mul_add_lt_is_or hb _

/-! ### Sampler lemmas -/

theorem sum_range_two_mul (K : Nat) (f : Nat → Nat) :
    ∑ i ∈ Finset.range (2 * K), f i =
      ∑ j ∈ Finset.range K, (f (2 * j) + f (2 * j + 1)) := by
  induction K with
  | zero => simp
  | succ k ih =>
    have h2 : 2 * (k + 1) = 2 * k + 1 + 1 := by ring
    have hL : ∑ i ∈ Finset.range (2 * k + 1 + 1), f i =
        ∑ i ∈ Finset.range (2 * k + 1), f i + f (2 * k + 1) :=
      Finset.sum_range_succ _ _
    have hL2 : ∑ i ∈ Finset.range (2 * k + 1), f i =
        ∑ i ∈ Finset.range (2 * k), f i + f (2 * k) :=
      Finset.sum_range_succ _ _
    have hR : ∑ j ∈ Finset.range (k + 1), (f (2 * j) + f (2 * j + 1)) =
        ∑ j ∈ Finset.range k, (f (2 * j) + f (2 * j + 1)) +
          (f (2 * k) + f (2 * k + 1)) :=
      Finset.sum_range_succ _ _
    rw [h2, hL, hL2, hR, ih]
    omega

theorem cpz_eq_group (n : Nat) :
    RandomParallel.countPairwiseZeroBits n = specGroupSuccessCount n := by
  unfold RandomParallel.countPairwiseZeroBits specGroupSuccessCount
  rw [popCount32_eq_sum]
  have h32 : (32 : Nat) = 2 * 16 := by norm_num
  rw [h32, sum_range_two_mul]
  refine Finset.sum_congr rfl ?_
  intro j hj
  have hj16 : j < 16 := Finset.mem_range.mp hj
  have hAeven : ∀ jj, jj < 16 →
      (RandomParallel.alternatingBitmask).testBit (2 * jj) = false := by decide
  have hAodd : ∀ jj, jj < 16 →
      (RandomParallel.alternatingBitmask).testBit (2 * jj + 1) = true := by decide
  have hEven : (n &&& (n <<< 1) % 2 ^ 32 &&&
      RandomParallel.alternatingBitmask).testBit (2 * j) = false := by
    rw [Nat.testBit_land, hAeven j hj16, Bool.and_false]
  have hlt : 2 * j + 1 < 32 := by omega
  have hge : 2 * j + 1 ≥ 1 := by omega
  have hOdd : (n &&& (n <<< 1) % 2 ^ 32 &&&
      RandomParallel.alternatingBitmask).testBit (2 * j + 1) =
      (n.testBit (2 * j + 1) && n.testBit (2 * j)) := by
    rw [Nat.testBit_land, hAodd j hj16, Bool.and_true, Nat.testBit_land,
      Nat.testBit_mod_two_pow, Nat.testBit_shiftLeft, decide_eq_true hlt,
      decide_eq_true hge, Bool.true_and, Bool.true_and, Nat.add_sub_cancel]
  rw [hEven, hOdd, Nat.testBit_to_div_mod, Nat.testBit_to_div_mod]
  have hdiv : n / 2 ^ (2 * j + 1) = n / 2 ^ (2 * j) / 2 := by
    rw [Nat.pow_succ, Nat.div_div_eq_div_mul]
  rw [hdiv]
  by_cases h3 : n / 2 ^ (2 * j) % 4 = 3
  · have h1 : n / 2 ^ (2 * j) / 2 % 2 = 1 := by omega
    have h2 : n / 2 ^ (2 * j) % 2 = 1 := by omega
    simp [h3, h1, h2]
  · have hcase : n / 2 ^ (2 * j) % 2 = 0 ∨ n / 2 ^ (2 * j) / 2 % 2 = 0 := by
      omega
    rcases hcase with hx | hx <;> simp [h3, hx]

/-! ### Batch Evaluator bound lemmas -/

theorem calcLoop_le (i : Nat) :
    ∀ c s, (RandomParallel.calcLoop i c s).1 ≤ c + 16 * i := by
  induction i with
  | zero => intro c s; simp [RandomParallel.calcLoop]
  | succ i ih =>
    intro c s
    have h1 := ih (c + RandomParallel.countPairwiseZeroBits
      (RandomParallel.nextRandomNumber s).1) (RandomParallel.nextRandomNumber s).2
    have h2 := cpz_le_16 (RandomParallel.nextRandomNumber s).1
    simp only [RandomParallel.calcLoop]
    omega

theorem par_calculateRound_le (s : RandomParallel.State) :
    RandomParallel.calculateRound s ≤ 231 := by
  simp only [RandomParallel.calculateRound]
  rw [show RandomParallel.completeAttempts = 14 from by decide,
    show RandomParallel.remainingAttemptsBitmask = 2 ^ (2 * 7) - 1 from by decide]
  have h1 := calcLoop_le 14 0 s
  have h2 := cpz_masked_le 7 (by norm_num)
    ((RandomParallel.nextRandomNumber (RandomParallel.calcLoop 14 0 s).2).1)
  omega

/-! ### Instrumented Batch Evaluator lemmas -/

theorem calcLoopCounted_gen (i : Nat) :
    ∀ c g s, (RandomParallel.calcLoopCounted i c g s).2.1 = g + i := by
  induction i with
  | zero => intro c g s; rfl
  | succ i ih =>
    intro c g s
    simp only [RandomParallel.calcLoopCounted]
    rw [ih]
    omega

theorem calcLoopCounted_val (i : Nat) :
    ∀ c g s, (RandomParallel.calcLoopCounted i c g s).1 =
        (RandomParallel.calcLoop i c s).1 ∧
      (RandomParallel.calcLoopCounted i c g s).2.2 =
        (RandomParallel.calcLoop i c s).2 := by
  induction i with
  | zero => intro c g s; exact ⟨rfl, rfl⟩
  | succ i ih =>
    intro c g s
    simp only [RandomParallel.calcLoopCounted, RandomParallel.calcLoop]
    exact ih _ _ _

/-! ### Worker-state derivation lemmas -/

theorem initDerive_eq_iterate (n : Nat) :
    ∀ s, RandomParallel.initDerive n s =
      (fun t => (RandomParallel.deriveNewState t).1)^[n] s := by
  induction n with
  | zero => intro s; rfl
  | succ n ih =>
    intro s
    simp only [RandomParallel.initDerive]
    rw [ih, Function.iterate_succ_apply]

/-! ### Sequential driver lemmas -/

theorem stateAfter_eq_iterate (n : Nat) :
    ∀ s, Random.stateAfter n s =
      (fun t => (Random.nextRandomNumber t.1 t.2).2)^[n] s := by
  induction n with
  | zero => intro s; rfl
  | succ n ih =>
    intro s
    simp only [Random.stateAfter]
    rw [ih, Function.iterate_succ_apply]

theorem stateAfter_add (a b : Nat) :
    ∀ s, Random.stateAfter (a + b) s =
      Random.stateAfter a (Random.stateAfter b s) := by
  intro s
  rw [stateAfter_eq_iterate, stateAfter_eq_iterate, stateAfter_eq_iterate,
    Function.iterate_add_apply]

theorem batchResult_succ (u v i : Nat) :
    Random.batchResult u v (i + 1) =
      Random.batchResult ((Random.stateAfter 2 (u, v)).1)
        ((Random.stateAfter 2 (u, v)).2) i := by
  unfold Random.batchResult
  rw [show 2 * (i + 1) = 2 * i + 2 from by ring, stateAfter_add (2 * i) 2 (u, v),
    Prod.mk.eta]

theorem sup_range_succ_shift (f : Nat → Nat) (r : Nat) :
    Finset.sup (Finset.range (r + 1)) f =
      max (f 0) (Finset.sup (Finset.range r) fun i => f (i + 1)) := by
  induction r with
  | zero => simp
  | succ r ih =>
    have hL : Finset.sup (Finset.range (r + 1 + 1)) f =
        f (r + 1) ⊔ Finset.sup (Finset.range (r + 1)) f := by
      simp only [Finset.range_succ, Finset.sup_insert]
    have hR : Finset.sup (Finset.range (r + 1)) (fun i => f (i + 1)) =
        f (r + 1) ⊔ Finset.sup (Finset.range r) (fun i => f (i + 1)) := by
      simp only [Finset.range_succ, Finset.sup_insert]
    rw [hL, ih, hR]
    exact sup_left_comm _ _ _

theorem simLoop_eq_max_sup (r : Nat) :
    ∀ u v m, Random.simLoop r m u v =
      max m (Finset.sup (Finset.range r) (Random.batchResult u v)) := by
  induction r with
  | zero => intro u v m; simp [Random.simLoop]
  | succ r ih =>
    intro u v m
    simp only [Random.simLoop]
    rw [ih]
    have hbs : ∀ i ∈ Finset.range r,
        Random.batchResult
          (Random.nextRandomNumber (Random.nextRandomNumber u v).2.1
            (Random.nextRandomNumber u v).2.2).2.1
          (Random.nextRandomNumber (Random.nextRandomNumber u v).2.1
            (Random.nextRandomNumber u v).2.2).2.2 i =
        Random.batchResult u v (i + 1) := by
      intro i _
      exact (batchResult_succ u v i).symm
    rw [Finset.sup_congr rfl hbs, sup_range_succ_shift (Random.batchResult u v) r,
      max_assoc]
    rfl

theorem le_simLoop (r : Nat) : ∀ u v m, m ≤ Random.simLoop r m u v := by
  induction r with
  | zero => intro u v m; exact le_refl m
  | succ r ih =>
    intro u v m
    simp only [Random.simLoop]
    exact le_trans (le_max_left _ _) (ih _ _ _)

theorem simLoop_eq_foldl (r : Nat) :
    ∀ u v m, Random.simLoop r m u v =
      List.foldl max m (Random.batchList r u v) := by
  induction r with
  | zero => intro u v m; rfl
  | succ r ih =>
    intro u v m
    simp only [Random.simLoop, Random.batchList, List.foldl]
    exact ih _ _ _

theorem foldl_max_eq (l : List Nat) :
    ∀ a, List.foldl max a l = max a (List.foldl max 0 l) := by
  induction l with
  | nil => intro a; simp
  | cons x xs ih =>
    intro a
    simp only [List.foldl]
    rw [ih (max a x), ih (max 0 x), Nat.zero_max]
    exact max_assoc _ _ _

/-! ### Parallel driver lemmas -/

theorem threadResults_fold (s : RandomParallel.State) :
    ∀ counts t, List.foldl max 0 (RandomParallel.threadResults s t counts) =
      List.foldl max 0 (RandomParallel.allBatches s t counts) := by
  intro counts
  induction counts with
  | nil => intro t; rfl
  | cons c cs ih =>
    intro t
    simp only [RandomParallel.threadResults, RandomParallel.allBatches,
      List.foldl, List.foldl_append]
    rw [foldl_max_eq (RandomParallel.threadResults s (t + 1) cs)
      (max 0 (RandomParallel.workerMax c (RandomParallel.initWorkerState s t)))]
    rw [Nat.zero_max]
    rw [ih (t + 1)]
    rw [foldl_max_eq (RandomParallel.allBatches s (t + 1) cs)
      (List.foldl max 0 (RandomParallel.batchList c
        (RandomParallel.initWorkerState s t)))]
    rfl

/-! ### Claim theorems -/

/-- C1: the claim states that the leftover-trials constant equals
`attempts % trialsPerWord` (7 at attempts = 231, trialsPerWord = 16) with
partial-draw bitmask `(1 << 14) - 1`, so that each batch evaluates
exactly `attempts` trials. This holds in src/random_parallel.cpp, but
src/random.cpp initializes `remainingAttempts` with a division instead
of a remainder: its leftover constant is 14, its mask is `(1 << 28) - 1`,
and its batch evaluates 16 * 14 + 14 = 238 trials instead of 231. -/
theorem c1_derived_constants :
    Random.remainingAttempts = 14 ∧
    Random.attempts % Random.numberOfExtractedPairs = 7 ∧
    Random.remainingAttemptsBitmask = 2 ^ 28 - 1 ∧
    Random.numberOfExtractedPairs * Random.completeAttempts +
      Random.remainingAttempts = 238 ∧
    RandomParallel.remainingAttempts = 7 ∧
    RandomParallel.remainingAttemptsBitmask = 2 ^ 14 - 1 := by
  decide

/-- C2: both source files' generators agree on every state `(u, v)`: they
return the same word and the same successor state, the state update being
`v := (36969 * (v mod 2^16) + v div 2^16) mod 2^32` and
`u := (18000 * (u mod 2^16) + u div 2^16) mod 2^32`, and the returned
word being `(v << 16) | (u mod 2^16)` in 32-bit arithmetic (the `+` of
src/random.cpp and the `|` of src/random_parallel.cpp coincide because
the two operands occupy disjoint bit ranges). -/
theorem c2_generator_agreement (u v : Nat) :
    (Random.nextRandomNumber u v).1 =
      (RandomParallel.nextRandomNumber ⟨u, v⟩).1 ∧
    (Random.nextRandomNumber u v).2.1 =
      ((RandomParallel.nextRandomNumber ⟨u, v⟩).2).u ∧
    (Random.nextRandomNumber u v).2.2 =
      ((RandomParallel.nextRandomNumber ⟨u, v⟩).2).v ∧
    ((RandomParallel.nextRandomNumber ⟨u, v⟩).2).v =
      (36969 * (v % 2 ^ 16) + v / 2 ^ 16) % 2 ^ 32 ∧
    ((RandomParallel.nextRandomNumber ⟨u, v⟩).2).u =
      (18000 * (u % 2 ^ 16) + u / 2 ^ 16) % 2 ^ 32 ∧
    (RandomParallel.nextRandomNumber ⟨u, v⟩).1 =
      ((((36969 * (v % 2 ^ 16) + v / 2 ^ 16) % 2 ^ 32) <<< 16) % 2 ^ 32) |||
        ((18000 * (u % 2 ^ 16) + u / 2 ^ 16) % 2 ^ 32 % 2 ^ 16) := by
  have hhalf : RandomParallel.halfBitSize = 16 := rfl
  have hmask : RandomParallel.lowerHalfBitMask = 2 ^ 16 - 1 := by decide
  have hbit : ∀ x : Nat, x &&& RandomParallel.lowerHalfBitMask = x % 2 ^ 16 := by
    intro x
    rw [hmask, Nat.and_pow_two_sub_one_eq_mod]
  have hshr : ∀ x : Nat, x >>> 16 = x / 2 ^ 16 := fun x =>
    Nat.shiftRight_eq_div_pow x 16
  refine ⟨shiftLeft16_add_eq_or _ _, rfl, rfl, ?_, ?_, ?_⟩
  · show (36969 * (v &&& RandomParallel.lowerHalfBitMask) +
        (v >>> RandomParallel.halfBitSize)) % 2 ^ 32 = _
    rw [hhalf, hshr v, hbit v]
  · show (18000 * (u &&& RandomParallel.lowerHalfBitMask) +
        (u >>> RandomParallel.halfBitSize)) % 2 ^ 32 = _
    rw [hhalf, hshr u, hbit u]
  · show ((((36969 * (v &&& RandomParallel.lowerHalfBitMask) +
          (v >>> RandomParallel.halfBitSize)) % 2 ^ 32) <<<
            RandomParallel.halfBitSize) % 2 ^ 32) |||
        (((18000 * (u &&& RandomParallel.lowerHalfBitMask) +
          (u >>> RandomParallel.halfBitSize)) % 2 ^ 32) &&&
            RandomParallel.lowerHalfBitMask) = _
    rw [hhalf, hshr v, hshr u, hbit v, hbit u,
      hbit ((18000 * (u % 2 ^ 16) + u / 2 ^ 16) % 2 ^ 32)]

/-- C3 (amended): the Multiplexed Trial Sampler of both source files
returns the number of the 16 aligned adjacent 2-bit groups of the word in
which both bits are set, and this count equals
`popcount(n & (n << 1) & alternatingMask)` where the alternating mask is
`0xAAAAAAAA`, the mask with every ODD bit position set (the claim's
"every even bit position set" is refuted by
`c3_even_mask_counterexample`). -/
theorem c3_sampler_group_count (n : Nat) :
    Random.countPairwiseZeroBits n = specGroupSuccessCount n ∧
    RandomParallel.countPairwiseZeroBits n = specGroupSuccessCount n ∧
    RandomParallel.countPairwiseZeroBits n =
      popCount32 (n &&& ((n <<< 1) % 2 ^ 32) &&& 0xAAAAAAAA) := by
  exact ⟨cpz_eq_group n, cpz_eq_group n, rfl⟩

/-- C3 (counterexample): at `n = 6` the sampler (and the true group
count) yields 0, but the claim's formula with the every-even-bit-set
mask `0x55555555` yields 1, so the claim's mask description is wrong. -/
theorem c3_even_mask_counterexample :
    RandomParallel.countPairwiseZeroBits 6 = 0 ∧
    specGroupSuccessCount 6 = 0 ∧
    popCount32 (6 &&& ((6 <<< 1) % 2 ^ 32) &&& specEvenAlternatingMask) = 1 := by
  decide

/-- C4 (amended): worker `k`'s local state is the simulation's initial
state iterated `2 * k` times through `deriveNewState`, i.e. through the
map that draws two words from the generator and returns the state built
from the two drawn words (hence `4 * k` generator calls in total), not
the initial state advanced `2 * k` plain generator steps (that reading is
refuted by `c4_two_step_counterexample`). -/
theorem c4_worker_state_derivation (s : RandomParallel.State) (k : Nat) :
    RandomParallel.initWorkerState s k =
      (fun t => (RandomParallel.deriveNewState t).1)^[2 * k] s ∧
    (RandomParallel.deriveNewState s).1 =
      ⟨(RandomParallel.nextRandomNumber s).1,
        (RandomParallel.nextRandomNumber
          (RandomParallel.nextRandomNumber s).2).1⟩ :=
  ⟨initDerive_eq_iterate (2 * k) s, rfl⟩

/-- C4 (counterexample): at the source's seed and worker index 1, the
state derived by the `Init` copy constructor differs from the seed
advanced `2 * 1` calls of the Bit-Stream Generator. -/
theorem c4_two_step_counterexample :
    RandomParallel.initWorkerState ⟨3235780015, 1059187280⟩ 1 ≠
      RandomParallel.advanceState 2 ⟨3235780015, 1059187280⟩ := by
  decide

/-- C5 (amended): for every configuration `attemptsCfg`, one Batch
Evaluator call makes exactly `attemptsCfg / 16 + 1` generator calls (the
masked leftover draw is unconditional, so this is `⌈attempts/16⌉` only
when 16 does not divide `attempts`) and always terminates; for
`attemptsCfg = 0` it returns 0, but with one generator call rather than
zero (refuting the claim's zero-draw reading, see
`c5_zero_attempts_counterexample`); at the source configuration 231 it
computes exactly `calculateRound`. -/
theorem c5_generator_call_count (attemptsCfg : Nat)
    (s : RandomParallel.State) :
    (RandomParallel.calculateRoundCounted attemptsCfg s).2 =
      attemptsCfg / 16 + 1 ∧
    (RandomParallel.calculateRoundCounted 0 s).1 = 0 ∧
    (RandomParallel.calculateRoundCounted RandomParallel.attempts s).1 =
      RandomParallel.calculateRound s := by
  refine ⟨?_, ?_, ?_⟩
  · show (RandomParallel.calcLoopCounted (attemptsCfg / 16) 0 0 s).2.1 + 1 =
      attemptsCfg / 16 + 1
    rw [calcLoopCounted_gen]
    omega
  · show 0 + RandomParallel.countPairwiseZeroBits
        ((RandomParallel.nextRandomNumber s).1 &&& 0) = 0
    rw [Nat.and_zero]
    decide
  · show (RandomParallel.calcLoopCounted 14 0 0 s).1 +
        RandomParallel.countPairwiseZeroBits
          ((RandomParallel.nextRandomNumber
            (RandomParallel.calcLoopCounted 14 0 0 s).2.2).1 &&&
              ((1 <<< 14) - 1)) =
      RandomParallel.calculateRound s
    have hv := calcLoopCounted_val 14 0 0 s
    rw [hv.1, hv.2]
    rfl

/-- C5 (counterexample): at `attempts = 0` the Batch Evaluator makes one
generator call (the unconditional masked leftover draw), not the zero
calls the claim's `⌈0/16⌉` predicts. -/
theorem c5_zero_attempts_counterexample :
    (RandomParallel.calculateRoundCounted 0 ⟨3235780015, 1059187280⟩).2 = 1 ∧
    (0 + 16 - 1) / 16 = 0 := by
  decide

/-- C6: the claim that every batch result is at most `attempts = 231`
holds for src/random_parallel.cpp, but src/random.cpp (through its
`remainingAttempts` slip, see C1) violates it: at the state
`(u, v) = (1179647999, 2422800383)`, a fixed point of both
multiply-with-carry components for which every generated word is
`0xFFFFFFFF`, its batch evaluator returns 238 > 231. -/
theorem c6_batch_result_bound :
    Random.calculateRound 1179647999 2422800383 = 238 ∧
    Random.attempts = 231 ∧
    (∀ s : RandomParallel.State,
      RandomParallel.calculateRound s ≤ RandomParallel.attempts) := by
  refine ⟨by decide, rfl, ?_⟩
  intro s
  exact par_calculateRound_le s

/-- C7: the sequential Simulation Driver returns the maximum over batches
`i < roundsTotal` of the Batch Evaluator result on the pair of two words
drawn from the running state before batch `i`, and with one round it
returns exactly that single batch result. -/
theorem c7_sequential_driver (r u v : Nat) :
    Random.runSimulationFor r u v =
      Finset.sup (Finset.range r) (Random.batchResult u v) ∧
    Random.runSimulationFor 1 u v = Random.batchResult u v 0 := by
  constructor
  · calc Random.runSimulationFor r u v =
        max 0 (Finset.sup (Finset.range r) (Random.batchResult u v)) :=
          simLoop_eq_max_sup r u v 0
      _ = Finset.sup (Finset.range r) (Random.batchResult u v) :=
          Nat.zero_max _
  · show Random.simLoop 1 0 u v = Random.batchResult u v 0
    simp only [Random.simLoop]
    rw [Nat.zero_max]
    rfl

/-- C8: the running maximum of the sequential driver loop is monotone in
its accumulator (so it never decreases as batches are processed), and
both drivers' final results are the fold of `max` over the multiset of
all their Batch Results — `Multiset.fold` is defined on the quotient by
permutations, so the value is independent of the processing or reduction
order. -/
theorem c8_max_reduction (r u v m : Nat) (s : RandomParallel.State)
    (counts : List Nat) :
    m ≤ Random.simLoop r m u v ∧
    Random.runSimulationFor r u v =
      Multiset.fold max 0 (Random.batchList r u v : Multiset Nat) ∧
    RandomParallel.runSimulation s counts =
      Multiset.fold max 0 (RandomParallel.allBatches s 0 counts : Multiset Nat) := by
  refine ⟨le_simLoop r u v m, ?_, ?_⟩
  · rw [Multiset.coe_fold_l]
    exact simLoop_eq_foldl r u v 0
  · rw [Multiset.coe_fold_l]
    exact threadResults_fold s counts 0

/-- C9: for every word `w` and every `k ≤ 16`, the sampler's count on
`w` masked to its low `2 * k` bits lies in `[0, k]` and depends only on
the low `2 * k` bits of `w`. -/
theorem c9_masked_sample_range (k w w2 : Nat) (hk : k ≤ 16)
    (hagree : w % 2 ^ (2 * k) = w2 % 2 ^ (2 * k)) :
    RandomParallel.countPairwiseZeroBits (w &&& (2 ^ (2 * k) - 1)) ≤ k ∧
    RandomParallel.countPairwiseZeroBits (w &&& (2 ^ (2 * k) - 1)) =
      RandomParallel.countPairwiseZeroBits (w2 &&& (2 ^ (2 * k) - 1)) := by
  refine ⟨cpz_masked_le k hk w, ?_⟩
  rw [Nat.and_pow_two_sub_one_eq_mod, Nat.and_pow_two_sub_one_eq_mod, hagree]

/-- C9 (witness): instantiation at `k = 7`, `w = 0xFFFFFFFF`,
`w2 = 0x3FFF`, which agree on their low 14 bits. -/
theorem c9_masked_sample_range_witness :
    ((7 : Nat) ≤ 16 ∧
      0xFFFFFFFF % 2 ^ (2 * 7) = 0x3FFF % 2 ^ (2 * 7)) ∧
    (RandomParallel.countPairwiseZeroBits (0xFFFFFFFF &&& (2 ^ (2 * 7) - 1)) ≤ 7 ∧
      RandomParallel.countPairwiseZeroBits (0xFFFFFFFF &&& (2 ^ (2 * 7) - 1)) =
        RandomParallel.countPairwiseZeroBits (0x3FFF &&& (2 ^ (2 * 7) - 1))) :=
  ⟨⟨by decide, by decide⟩,
    c9_masked_sample_range 7 0xFFFFFFFF 0x3FFF (by decide) (by decide)⟩

/-- C10: for every word, the sampler's count is in `[0, 16]`; the
all-ones word yields 16, the zero word yields 0, and both files'
samplers agree. -/
theorem c10_sampler_range :
    (∀ n, RandomParallel.countPairwiseZeroBits n ≤ 16) ∧
    RandomParallel.countPairwiseZeroBits 0xFFFFFFFF = 16 ∧
    RandomParallel.countPairwiseZeroBits 0 = 0 ∧
    (∀ n, Random.countPairwiseZeroBits n =
      RandomParallel.countPairwiseZeroBits n) :=
  ⟨cpz_le_16, by decide, by decide, fun _ => rfl⟩
